import Mathlib

/-!
Verification of the citizen/job allocation core and the town-hall
progression/timer controller of an incremental city-management game.

The definitions below are shallow embeddings of the two source stores:

* `src/src/stores/citizens.ts` (job assignment, the demotion correction
  effect, the starvation tick listener, the per-job revenue feed);
* the town-hall store (level synchronisation, `upgradeable` / `upgrade`,
  the recruitment interval and its 100ms polling timer).

Job assignment counts and the citizen count are modelled as integers, as
the data model declares them (`assignedByJob: mapping(jobId -> int)`,
`totalCitizens: int`); resource stocks, capacities, revenues and the
timer quantities are modelled as rationals, standing for the real-number
semantics of the untyped numbers of the source.
-/

/-- The five job keys, in the iteration (insertion) order of the source
object literal. -/
inductive Job where
  | farmers
  | merchants
  | lumberjacks
  | miners
  | builders
deriving DecidableEq

/-- `jobKeys` array of the source, in order. -/
def jobKeys : List Job :=
  [Job.farmers, Job.merchants, Job.lumberjacks, Job.miners, Job.builders]

/-- The per-job assignment counts of the reactive `jobs` object. -/
structure Jobs where
  farmers : Int
  merchants : Int
  lumberjacks : Int
  miners : Int
  builders : Int
deriving DecidableEq

/-- Read one job count, as `jobs[jobName]` does. -/
def Jobs.get (j : Jobs) : Job → Int
  | Job.farmers => j.farmers
  | Job.merchants => j.merchants
  | Job.lumberjacks => j.lumberjacks
  | Job.miners => j.miners
  | Job.builders => j.builders

/-- Write one job count, as `jobs[jobName] = v` does. -/
def Jobs.set (j : Jobs) : Job → Int → Jobs
  | Job.farmers, v => { j with farmers := v }
  | Job.merchants, v => { j with merchants := v }
  | Job.lumberjacks, v => { j with lumberjacks := v }
  | Job.miners, v => { j with miners := v }
  | Job.builders, v => { j with builders := v }

/-- `jobs[key] -= 1`. -/
def Jobs.dec (j : Jobs) (k : Job) : Jobs :=
  j.set k (j.get k - 1)

/-- `citizensWithJobs`: the sum of all job counts
(`Object.values(jobs).reduce((acc, val) => acc + val, 0)`). -/
def citizensWithJobs (j : Jobs) : Int :=
  j.farmers + j.merchants + j.lumberjacks + j.miners + j.builders

/-- `idle`: `citizenCount - citizensWithJobs`, floored at 0. -/
def idle (citizenCount : Int) (j : Jobs) : Int :=
  let idleCount := citizenCount - citizensWithJobs j
  if idleCount > 0 then idleCount else 0

/-- The `temporaryJobsArray` snapshot: `Object.entries(jobs)` in insertion
order (the `key !== idle` filter of the source never removes anything,
since the object has only the five job keys). -/
def jobEntries (j : Jobs) : List (Job × Int) :=
  [(Job.farmers, j.farmers), (Job.merchants, j.merchants),
    (Job.lumberjacks, j.lumberjacks), (Job.miners, j.miners),
    (Job.builders, j.builders)]

/-- The `reduce` of the demotion effect: starting from the accumulator
`\x7b key: basic empty, count: 0 \x7d`, replace it whenever an entry has a count
strictly greater than the accumulator count.  The first component is
`none` exactly when no job has a positive count. -/
def jobWithMaxCount (j : Jobs) : Option Job × Int :=
  (jobEntries j).foldl
    (fun acc kv => if kv.2 > acc.2 then (some kv.1, kv.2) else acc)
    (none, 0)

theorem citizensWithJobs_dec (j : Jobs) (k : Job) :
    citizensWithJobs (j.dec k) = citizensWithJobs j - 1 := by
  cases k <;>
    simp [Jobs.dec, Jobs.get, Jobs.set, citizensWithJobs] <;> ring

/-- The `for` loop of the demotion effect.  `snapshot` is the
`temporaryJobsArray` captured once at the start of the effect run; the
loop guard re-reads the live `citizensWithJobs` value.  Returns the
final job counts together with the list of jobs decremented, in order. -/
def demotionLoop (citizenCount : Int) (snapshot : Jobs) (i : Nat) (j : Jobs) :
    Jobs × List Job :=
  if h : (i : Int) < citizensWithJobs j - citizenCount then
    match (jobWithMaxCount snapshot).1 with
    | none => (j, [])
    | some k =>
        ((demotionLoop citizenCount snapshot (i + 1) (j.dec k)).1,
          k :: (demotionLoop citizenCount snapshot (i + 1) (j.dec k)).2)
  else (j, [])
termination_by (citizensWithJobs j - citizenCount - i).toNat
decreasing_by
  rw [citizensWithJobs_dec]
  omega

/-- One run of the demotion `watchEffect`: if there are no idle citizens
and more citizens hold jobs than exist, run the decrement loop over a
snapshot of the current job counts. -/
def demotionEffect (citizenCount : Int) (j : Jobs) : Jobs × List Job :=
  if idle citizenCount j = 0 ∧ citizensWithJobs j > citizenCount then
    demotionLoop citizenCount j 0 j
  else (j, [])

theorem demotionLoop_cases (citizenCount : Int) (snapshot : Jobs) (i : Nat)
    (j : Jobs) :
    demotionLoop citizenCount snapshot i j = (j, []) ∨
      citizensWithJobs (demotionLoop citizenCount snapshot i j).1 <
        citizensWithJobs j := by
  induction i, j using demotionLoop.induct citizenCount snapshot with
  | case1 i j h heq =>
      left
      rw [demotionLoop]
      simp [h, heq]
  | case2 i j h k heq ih =>
      right
      rw [demotionLoop]
      simp only [h, dite_true, heq]
      have hdec := citizensWithJobs_dec j k
      rcases ih with ih | ih
      · rw [ih]
        show citizensWithJobs (j.dec k) < citizensWithJobs j
        omega
      · omega
  | case3 i j h =>
      left
      rw [demotionLoop]
      simp [h]

theorem demotionEffect_cases (citizenCount : Int) (j : Jobs) :
    demotionEffect citizenCount j = (j, []) ∨
      (citizensWithJobs (demotionEffect citizenCount j).1 < citizensWithJobs j ∧
        citizenCount < citizensWithJobs j) := by
  unfold demotionEffect
  by_cases h : idle citizenCount j = 0 ∧ citizensWithJobs j > citizenCount
  · rw [if_pos h]
    rcases demotionLoop_cases citizenCount j 0 j with h2 | h2
    · left; exact h2
    · right; exact ⟨h2, h.2⟩
  · rw [if_neg h]
    left; rfl

/-- Iterate the demotion effect until it makes no change, as the reactive
system does: every run that modifies the job counts re-triggers the
effect.  Returns the stable job counts and the concatenated decrement
trace. -/
def demotionFix (citizenCount : Int) (j : Jobs) : Jobs × List Job :=
  if h : (demotionEffect citizenCount j).1 = j then demotionEffect citizenCount j
  else
    ((demotionFix citizenCount (demotionEffect citizenCount j).1).1,
      (demotionEffect citizenCount j).2 ++
        (demotionFix citizenCount (demotionEffect citizenCount j).1).2)
termination_by (citizensWithJobs j - citizenCount).toNat
decreasing_by
  rcases demotionEffect_cases citizenCount j with h2 | h2
  · exact absurd (congrArg Prod.fst h2) h
  · omega

theorem demotionEffect_of_fst_eq (citizenCount : Int) (j : Jobs)
    (h : (demotionEffect citizenCount j).1 = j) :
    demotionEffect citizenCount j = (j, []) := by
  rcases demotionEffect_cases citizenCount j with h2 | h2
  · exact h2
  · rw [h] at h2
    omega

theorem demotionFix_effect_eq (citizenCount : Int) (j : Jobs) :
    demotionEffect citizenCount (demotionFix citizenCount j).1 =
      ((demotionFix citizenCount j).1, []) := by
  induction j using demotionFix.induct citizenCount with
  | case1 j h =>
      rw [demotionFix, dif_pos h]
      rw [demotionEffect_of_fst_eq citizenCount j h, demotionEffect_of_fst_eq citizenCount j h]
  | case2 j h ih =>
      rw [demotionFix, dif_neg h]
      exact ih

theorem idle_eq (citizenCount : Int) (j : Jobs) :
    idle citizenCount j =
      if citizenCount - citizensWithJobs j > 0
        then citizenCount - citizensWithJobs j else 0 := rfl

theorem demotionEffect_stable (citizenCount : Int) (j : Jobs)
    (hfix : demotionEffect citizenCount j = (j, [])) :
    citizensWithJobs j ≤ citizenCount ∨ (jobWithMaxCount j).1 = none := by
  by_cases hs : citizensWithJobs j ≤ citizenCount
  · exact Or.inl hs
  push_neg at hs
  right
  have hidle : idle citizenCount j = 0 := by
    rw [idle_eq, if_neg]
    omega
  rw [demotionEffect, if_pos ⟨hidle, hs⟩] at hfix
  rw [demotionLoop] at hfix
  have h0 : ((0 : Nat) : Int) < citizensWithJobs j - citizenCount := by
    push_cast
    omega
  rw [dif_pos h0] at hfix
  cases hmax : (jobWithMaxCount j).1 with
  | none => rfl
  | some k =>
      rw [hmax] at hfix
      simp at hfix

/-- Modelled from the spec: the demotion rule of the specification says
that every individual decrement is applied to the job with the strictly
largest assignment at the moment of that decrement, ties broken by
iteration order among tied jobs, stopping when no job has any assignment
left.  This predicate checks a decrement trace against that rule. -/
def followsMaxRule : Jobs → List Job → Bool
  | _, [] => true
  | j, k :: rest =>
      decide ((jobWithMaxCount j).1 = some k) && followsMaxRule (j.dec k) rest

/-- `assignJob(jobName, count)`: negative counts re-enter with 0; then
the new count is `Math.min(count, currentCount + idle)`. -/
def assignJob (citizenCount : Int) (j : Jobs) (jobName : Job) (count : Int) :
    Jobs :=
  if count < 0 then assignJob citizenCount j jobName 0
  else
    let currentCount := j.get jobName
    let maxCount := currentCount + idle citizenCount j
    j.set jobName (min count maxCount)
termination_by (if count < 0 then 1 else 0 : Nat)
decreasing_by
  simp_all

theorem Jobs.get_set_self (j : Jobs) (k : Job) (v : Int) :
    (j.set k v).get k = v := by
  cases k <;> rfl

theorem assignJob_eq (citizenCount : Int) (j : Jobs) (jobName : Job)
    (count : Int) :
    assignJob citizenCount j jobName count =
      j.set jobName
        (min (max count 0) (j.get jobName + idle citizenCount j)) := by
  by_cases h : count < 0
  · rw [assignJob, if_pos h, assignJob, if_neg (by omega : ¬ (0 : Int) < 0)]
    have : max count 0 = 0 := by omega
    rw [this]
  · rw [assignJob, if_neg h]
    have : max count 0 = count := by omega
    rw [this]

/-- Modelled from the spec: the Contribution Map of `useNumberMap` — a
mapping from contributor id to number whose `total` is the sum of the
latest value per id; `set` upserts (replaces, never accumulates). -/
structure NumberMap where
  entries : List (String × ℚ)
deriving DecidableEq

/-- Upsert a contribution: any previous entry for `id` is replaced. -/
def NumberMap.set (m : NumberMap) (id : String) (v : ℚ) : NumberMap :=
  ⟨(id, v) :: m.entries.filter (fun p => p.1 != id)⟩

/-- Read the contribution registered under `id`, when present. -/
def NumberMap.find (m : NumberMap) (id : String) : Option ℚ :=
  m.entries.lookup id

/-- The live sum of all current entries. -/
def NumberMap.total (m : NumberMap) : ℚ :=
  (m.entries.map Prod.snd).sum

theorem NumberMap.find_set_self (m : NumberMap) (id : String) (v : ℚ) :
    (m.set id v).find id = some v := by
  simp [NumberMap.set, NumberMap.find, List.lookup]

/-- The resource keys of the ledger, in the order of `resourceKeys`. -/
inductive ResourceKey where
  | food
  | gold
  | wood
  | iron
  | labour
deriving DecidableEq

/-- `resourceKeys` array of the resources store, in order. -/
def resourceKeys : List ResourceKey :=
  [ResourceKey.food, ResourceKey.gold, ResourceKey.wood, ResourceKey.iron,
    ResourceKey.labour]

/-- The string name of a resource key. -/
def resourceKeyName : ResourceKey → String
  | ResourceKey.food => "food"
  | ResourceKey.gold => "gold"
  | ResourceKey.wood => "wood"
  | ResourceKey.iron => "iron"
  | ResourceKey.labour => "labour"

/-- Modelled from the spec: one resource of the ledger — current stock
(`value`), a capacity Contribution Map and a revenue Contribution Map. -/
structure Resource where
  value : ℚ
  capacity : NumberMap
  revenue : NumberMap
deriving DecidableEq

/-- `setCapacity(contributorId, value)` of the resources store. -/
def Resource.setCapacity (r : Resource) (id : String) (v : ℚ) : Resource :=
  { r with capacity := r.capacity.set id v }

/-- `setRevenue(contributorId, value)` of the resources store. -/
def Resource.setRevenue (r : Resource) (id : String) (v : ℚ) : Resource :=
  { r with revenue := r.revenue.set id v }

/-- Modelled from the spec: one tick of a resource — add the revenue
total to the stock, then clamp the stock to `[0, capacityTotal]`. -/
def Resource.applyTick (r : Resource) : Resource :=
  { r with value := max 0 (min (r.value + r.revenue.total) r.capacity.total) }

/-- The five resources of the ledger. -/
structure Resources where
  food : Resource
  gold : Resource
  wood : Resource
  iron : Resource
  labour : Resource
deriving DecidableEq

/-- Read `resources[key]`. -/
def Resources.get (rs : Resources) : ResourceKey → Resource
  | ResourceKey.food => rs.food
  | ResourceKey.gold => rs.gold
  | ResourceKey.wood => rs.wood
  | ResourceKey.iron => rs.iron
  | ResourceKey.labour => rs.labour

/-- Replace `resources[key]`. -/
def Resources.set (rs : Resources) : ResourceKey → Resource → Resources
  | ResourceKey.food, r => { rs with food := r }
  | ResourceKey.gold, r => { rs with gold := r }
  | ResourceKey.wood, r => { rs with wood := r }
  | ResourceKey.iron, r => { rs with iron := r }
  | ResourceKey.labour, r => { rs with labour := r }

/-- The starvation tick listener of the citizens store, composed with the
spec-modelled food tick it is registered on: the listener runs after the
clamp and decrements the citizen count when the food stock it observes is
strictly negative. -/
def starvationTick (citizenCount : Int) (food : Resource) : Int × Resource :=
  (if (food.applyTick).value < 0 then citizenCount - 1 else citizenCount,
    food.applyTick)

/-- `jobResourceMap`: the 1:1 map from each job to the resource it
produces revenue for. -/
def jobResourceMap : Job → ResourceKey
  | Job.farmers => ResourceKey.food
  | Job.merchants => ResourceKey.gold
  | Job.lumberjacks => ResourceKey.wood
  | Job.miners => ResourceKey.iron
  | Job.builders => ResourceKey.labour

/-- The string name of a job key. -/
def jobName : Job → String
  | Job.farmers => "farmers"
  | Job.merchants => "merchants"
  | Job.lumberjacks => "lumberjacks"
  | Job.miners => "miners"
  | Job.builders => "builders"

/-- The revenue-feed `watchEffect` of the citizens store: for every entry
of `jobResourceMap`, in order, set the mapped resource revenue under the
id `citizens.<job>` to the job count times the total of the per-citizen
increment map of that job. -/
def revenueFeed (jobs : Jobs) (jobIncrements : Job → NumberMap)
    (rs : Resources) : Resources :=
  jobKeys.foldl
    (fun acc jobKey =>
      acc.set (jobResourceMap jobKey)
        ((acc.get (jobResourceMap jobKey)).setRevenue
          (String.append "citizens." (jobName jobKey))
          ((jobs.get jobKey : ℚ) * (jobIncrements jobKey).total)))
    rs

/-- The level table of the town hall: per level, capacity and revenue per
resource key and a citizen threshold.  The table itself is external
configuration. -/
structure LevelConfig where
  capacities : ResourceKey → ℚ
  revenue : ResourceKey → ℚ
  citizens : Int

/-- The `watch(level)` body of the town hall store: for every resource
key, `setCapacity(key, levelConfig.capacities[key])` and
`setRevenue(buildings.townHall, levelConfig.revenue[key])`.  It runs on
every change of `level` and once immediately. -/
def syncLevel (config : Nat → LevelConfig) (level : Nat) (rs : Resources) :
    Resources :=
  resourceKeys.foldl
    (fun acc key =>
      acc.set key
        (((acc.get key).setCapacity (resourceKeyName key)
            ((config level).capacities key)).setRevenue
          "buildings.townHall" ((config level).revenue key)))
    rs

/-- The town hall state: the level and the resource ledger it writes to. -/
structure TownHall where
  level : Nat
  resources : Resources
deriving DecidableEq

/-- `upgradeable`: the food stock equals the food capacity total and the
gold stock equals the gold capacity total, both exactly. -/
def upgradeable (rs : Resources) : Prop :=
  rs.food.value = rs.food.capacity.total ∧
    rs.gold.value = rs.gold.capacity.total

instance (rs : Resources) : Decidable (upgradeable rs) := by
  unfold upgradeable
  exact instDecidableAnd

/-- `upgrade()`: a no-op unless `upgradeable`; otherwise zero the gold
stock and advance the level by one. -/
def upgrade (s : TownHall) : TownHall :=
  if upgradeable s.resources then
    { level := s.level + 1,
      resources := s.resources.set ResourceKey.gold
        { s.resources.gold with value := 0 } }
  else s

/-- Truncation toward zero, used to model the JavaScript `%` operator on
numbers. -/
def ratTrunc (q : ℚ) : Int :=
  if 0 ≤ q then Rat.floor q else -Rat.floor (-q)

/-- The JavaScript remainder `x % y` for a positive modulus `y`: the
remainder of the truncating division, carrying the sign of `x`. -/
def jsMod (x y : ℚ) : ℚ :=
  x - y * (ratTrunc (x / y) : ℚ)

/-- `BASE_CITIZEN_INTERVAL` of the town hall store. -/
def BASE_CITIZEN_INTERVAL : ℚ := 60000

/-- `citizenIntervalTime`: the recruitment period computed from the
happiness value and the interval multiplier total, with the sub-second
part removed via `value - (value % 1000)` before the multiplication. -/
def citizenIntervalTime (happiness multiplierTotal : ℚ) : ℚ :=
  let value := BASE_CITIZEN_INTERVAL * ((190 - happiness) / 100)
  (value - jsMod value 1000) * multiplierTotal

/-- Modelled from the spec: `clampToWholeSeconds` truncates its argument
down to the nearest multiple of 1000ms. -/
def clampToWholeSeconds (q : ℚ) : ℚ :=
  1000 * (Rat.floor (q / 1000) : ℚ)

/-- Modelled from the spec: the recruitment period formula
`clampToWholeSeconds(BASE_INTERVAL * (190 - happiness) / 100) *
multiplier.total`. -/
def specRecruitPeriod (happiness multiplierTotal : ℚ) : ℚ :=
  clampToWholeSeconds (60000 * ((190 - happiness) / 100)) * multiplierTotal

/-- The recruitment timer state: the accumulated elapsed milliseconds,
the citizen count it recruits into, and whether the 100ms interval is
currently running. -/
structure RecruitState where
  passedIntervalMs : ℚ
  citizenCount : Int
  active : Bool
deriving DecidableEq

/-- `checkRecruitmentTime`: return unless the elapsed time has reached
the current period; otherwise recruit one citizen and reset the elapsed
time. -/
def checkRecruitmentTime (periodMs : ℚ) (s : RecruitState) : RecruitState :=
  if s.passedIntervalMs < periodMs then s
  else { s with passedIntervalMs := 0, citizenCount := s.citizenCount + 1 }

/-- One firing of the 100ms interval: if the timer is running, add 100ms
to the elapsed time and run the recruitment check against the period
value current at check time. -/
def intervalTick (periodMs : ℚ) (s : RecruitState) : RecruitState :=
  if s.active then
    checkRecruitmentTime periodMs
      { s with passedIntervalMs := s.passedIntervalMs + 100 }
  else s

/-- The `watch(citizensCanBeRecruited)` handler: on any eligibility
transition, stop the running interval and reset the elapsed time; start
the interval again exactly when the new eligibility value is true. -/
def eligibilityChange (newValue : Bool) (s : RecruitState) : RecruitState :=
  { passedIntervalMs := 0, citizenCount := s.citizenCount,
    active := newValue }

/-- C1 counterexample: starting from one citizen assigned to every job
and a citizen count of 0, the decrement trace of the reactive correction
is farmers, farmers, farmers, merchants, lumberjacks — and already the
second decrement hits farmers (count 0 at that moment) although
merchants holds the strictly largest current assignment (count 1), so
the decrements are not applied to a job with the strictly largest
current assignment at that moment. -/
theorem demotion_decrement_not_at_current_max :
    followsMaxRule ⟨1, 1, 1, 1, 1⟩ (demotionFix 0 ⟨1, 1, 1, 1, 1⟩).2 =
      false := by
  have h : (demotionFix 0 ⟨1, 1, 1, 1, 1⟩).2 =
      [Job.farmers, Job.farmers, Job.farmers, Job.merchants,
        Job.lumberjacks] := by
    simp +decide [demotionFix, demotionEffect, demotionLoop, jobWithMaxCount,
      jobEntries, Jobs.dec, Jobs.get, Jobs.set, citizensWithJobs, idle]
  rw [h]
  decide

/-- C1 (amended): iterating the reactive correction to its fixed point
always converges, and the resulting state has either a job-count sum of
at most the citizen count or no job with a positive assignment left;
each individual decrement targets the job that was largest in the
snapshot taken at the start of its effect run, not the largest at the
moment of the decrement. -/
theorem demotion_correction_converges (citizenCount : Int) (j : Jobs) :
    citizensWithJobs (demotionFix citizenCount j).1 ≤ citizenCount ∨
      (jobWithMaxCount (demotionFix citizenCount j).1).1 = none :=
  demotionEffect_stable citizenCount (demotionFix citizenCount j).1
    (demotionFix_effect_eq citizenCount j)

theorem demotionLoop_length_le (citizenCount : Int) (snapshot : Jobs)
    (i : Nat) (j : Jobs) :
    (demotionLoop citizenCount snapshot i j).2.length ≤
      (citizensWithJobs j - citizenCount - i).toNat := by
  induction i, j using demotionLoop.induct citizenCount snapshot with
  | case1 i j h heq =>
      rw [demotionLoop]
      simp [h, heq]
  | case2 i j h k heq ih =>
      rw [demotionLoop]
      simp only [h, dite_true, heq, List.length_cons]
      have hdec := citizensWithJobs_dec j k
      omega
  | case3 i j h =>
      rw [demotionLoop]
      simp [h]

theorem demotionLoop_stops_when_none (citizenCount : Int) (snapshot : Jobs)
    (i : Nat) (j : Jobs) (hnone : (jobWithMaxCount snapshot).1 = none) :
    demotionLoop citizenCount snapshot i j = (j, []) := by
  rw [demotionLoop]
  split
  · simp [hnone]
  · rfl

/-- C9: the demotion correction terminates on every input: each loop run
performs at most the required number of decrements, a run over a
snapshot in which no job has any assignment left changes nothing, and
the iterated correction reaches a state on which a further effect run
makes no change at all. -/
theorem demotion_terminates (citizenCount : Int) (j : Jobs) :
    (∀ (snapshot : Jobs) (i : Nat) (jc : Jobs),
        (demotionLoop citizenCount snapshot i jc).2.length ≤
          (citizensWithJobs jc - citizenCount - i).toNat) ∧
      (∀ (snapshot : Jobs) (i : Nat) (jc : Jobs),
        (jobWithMaxCount snapshot).1 = none →
          demotionLoop citizenCount snapshot i jc = (jc, [])) ∧
      demotionEffect citizenCount (demotionFix citizenCount j).1 =
        ((demotionFix citizenCount j).1, []) :=
  ⟨fun snapshot i jc => demotionLoop_length_le citizenCount snapshot i jc,
    fun snapshot i jc hnone =>
      demotionLoop_stops_when_none citizenCount snapshot i jc hnone,
    demotionFix_effect_eq citizenCount j⟩

/-- C9 witness: with every snapshot count nonpositive, the loop stops
with no decrement although the counted bound (two more decrements) is
not exhausted. -/
theorem demotion_terminates_witness :
    demotionLoop (-3) ⟨-1, 0, 0, 0, 0⟩ 0 ⟨-1, 0, 0, 0, 0⟩ =
      (⟨-1, 0, 0, 0, 0⟩, []) :=
  (demotion_terminates (-3) ⟨0, 0, 0, 0, 0⟩).2.1 ⟨-1, 0, 0, 0, 0⟩ 0
    ⟨-1, 0, 0, 0, 0⟩ (by decide)

/-- C2: whenever the interval `[0, currentAssigned + idle]` is nonempty,
`assignJob(job, count)` sets the count of that job to `count` clamped to
this interval: negative input yields 0, input above the bound yields the
bound, and the function is total, so no error is raised. -/
theorem assignJob_clamps (citizenCount : Int) (j : Jobs) (job : Job)
    (count : Int) (h : 0 ≤ j.get job + idle citizenCount j) :
    (assignJob citizenCount j job count).get job =
      max 0 (min count (j.get job + idle citizenCount j)) := by
  rw [assignJob_eq, Jobs.get_set_self]
  omega

/-- C2 witness: with 2 idle citizens and no farmers assigned,
`assignJob(farmers, 100)` yields an assignment of 2. -/
theorem assignJob_clamps_witness :
    (assignJob 2 ⟨0, 0, 0, 0, 0⟩ Job.farmers 100).get Job.farmers = 2 := by
  have h := assignJob_clamps 2 ⟨0, 0, 0, 0, 0⟩ Job.farmers 100 (by decide)
  rw [h]
  decide

/-- An empty resource: stock 0, no capacity and no revenue entries. -/
def emptyResource : Resource := ⟨0, ⟨[]⟩, ⟨[]⟩⟩

/-- A ledger of five empty resources. -/
def emptyResources : Resources :=
  ⟨emptyResource, emptyResource, emptyResource, emptyResource, emptyResource⟩

/-- C3: `upgrade()` is a silent no-op (the whole state, including every
stock, capacity and revenue map, is returned unchanged) unless the food
stock equals the food capacity total and the gold stock equals the gold
capacity total, both exactly; when both hold, it zeroes the gold stock,
increments the level by exactly one, and leaves the other resources and
the gold capacity and revenue maps unchanged. -/
theorem upgrade_gating (s : TownHall) :
    (¬ upgradeable s.resources → upgrade s = s) ∧
      (upgradeable s.resources →
        (upgrade s).level = s.level + 1 ∧
          (upgrade s).resources.gold.value = 0 ∧
          (upgrade s).resources.food = s.resources.food ∧
          (upgrade s).resources.wood = s.resources.wood ∧
          (upgrade s).resources.iron = s.resources.iron ∧
          (upgrade s).resources.labour = s.resources.labour ∧
          (upgrade s).resources.gold.capacity = s.resources.gold.capacity ∧
          (upgrade s).resources.gold.revenue = s.resources.gold.revenue) := by
  constructor
  · intro h
    rw [upgrade, if_neg h]
  · intro h
    rw [upgrade, if_pos h]
    exact ⟨rfl, rfl, rfl, rfl, rfl, rfl, rfl, rfl⟩

/-- C3 witness: a state with a food stock above the (empty) food
capacity is not upgraded, and a state with all stocks and capacity
totals equal to 0 upgrades from level 1 to level 2 with the gold stock
zeroed. -/
theorem upgrade_gating_witness :
    upgrade ⟨1, { emptyResources with
        food := { emptyResource with value := 1 } }⟩ =
        ⟨1, { emptyResources with
          food := { emptyResource with value := 1 } }⟩ ∧
      (upgrade ⟨1, emptyResources⟩).level = 2 ∧
      (upgrade ⟨1, emptyResources⟩).resources.gold.value = 0 := by
  have h2 := (upgrade_gating ⟨1, emptyResources⟩).2 (by decide)
  refine ⟨(upgrade_gating _).1 (by decide), ?_, h2.2.1⟩
  rw [h2.1]

theorem intervalTick_iterate (c : Int) :
    ∀ k : Nat, k ≤ 599 →
      (intervalTick 60000)^[k] ⟨0, c, true⟩ = ⟨100 * k, c, true⟩ := by
  intro k
  induction k with
  | zero => intro _; simp
  | succ n ih =>
      intro hk
      rw [Function.iterate_succ_apply', ih (by omega)]
      have hn : (n : ℚ) ≤ 598 := by
        exact_mod_cast (by omega : n ≤ 598)
      have hlt : (100 : ℚ) * n + 100 < 60000 := by linarith
      simp only [intervalTick, checkRecruitmentTime, if_true, if_pos hlt]
      have : (100 : ℚ) * n + 100 = 100 * (n + 1 : Nat) := by
        push_cast
        ring
      rw [this]

/-- C4: while the timer is active, each interval firing adds 100ms and
recruits exactly one citizen (resetting the elapsed time to 0) exactly
when the accumulated elapsed time reaches or exceeds the period value
current at check time; every eligibility transition stops the timer,
resets the elapsed time to 0 and restarts accumulation exactly when the
new value is true; and with a constant period of 60000ms, 600 firings of
the 100ms interval recruit exactly one citizen. -/
theorem recruitment_timer_behavior :
    (∀ (periodMs : ℚ) (s : RecruitState),
        intervalTick periodMs s =
          if s.active then
            (if s.passedIntervalMs + 100 < periodMs then
              { s with passedIntervalMs := s.passedIntervalMs + 100 }
            else
              { s with passedIntervalMs := 0, citizenCount := s.citizenCount + 1 })
          else s) ∧
      (∀ (b : Bool) (s : RecruitState),
        eligibilityChange b s = ⟨0, s.citizenCount, b⟩) ∧
      (∀ c : Int,
        (intervalTick 60000)^[600] ⟨0, c, true⟩ = ⟨0, c + 1, true⟩) := by
  refine ⟨fun periodMs s => rfl, fun b s => rfl, fun c => ?_⟩
  have h599 := intervalTick_iterate c 599 (by omega)
  rw [show (600 : Nat) = 599 + 1 from rfl, Function.iterate_succ_apply', h599]
  have hge : ¬ ((100 : ℚ) * ((599 : Nat) : ℚ) + 100 < 60000) := by
    push_cast
    norm_num
  simp only [intervalTick, checkRecruitmentTime, if_true, if_neg hge]

/-- Shared computation: the recruitment period equals 1000 times the
toward-zero truncation of `value / 1000`, times the multiplier total. -/
theorem citizenIntervalTime_eq (happiness multiplierTotal : ℚ) :
    citizenIntervalTime happiness multiplierTotal =
      1000 * (ratTrunc ((60000 * ((190 - happiness) / 100)) / 1000) : ℚ) *
        multiplierTotal := by
  simp only [citizenIntervalTime, jsMod, BASE_CITIZEN_INTERVAL]
  ring

/-- C5 counterexample: at happiness 191 (and multiplier total 1) the
source computes a period of 0, while truncating down to the nearest
multiple of 1000 as the claim states would give -1000. -/
theorem ratFloor_eq_intFloor (q : ℚ) : Rat.floor q = ⌊q⌋ := rfl

theorem citizenIntervalTime_ne_spec :
    citizenIntervalTime 191 1 ≠ specRecruitPeriod 191 1 ∧
      citizenIntervalTime 191 1 = 0 ∧ specRecruitPeriod 191 1 = -1000 := by
  have h1 : citizenIntervalTime 191 1 = 0 := by
    rw [citizenIntervalTime_eq]
    norm_num [ratTrunc, ratFloor_eq_intFloor]
  have h2 : specRecruitPeriod 191 1 = -1000 := by
    rw [specRecruitPeriod, clampToWholeSeconds, ratFloor_eq_intFloor]
    norm_num
  refine ⟨?_, h1, h2⟩
  rw [h1, h2]
  norm_num

/-- C5 (amended): for every happiness value and multiplier total, the
recruitment period equals 1000 times the toward-zero truncation of
`60000 * (190 - happiness) / 100 / 1000`, times the multiplier total
(the truncation drops the sub-1000ms remainder of the JavaScript `%`
and is applied before the multiplication); for happiness at most 190
this coincides with truncating down to the nearest multiple of 1000,
and happiness 90 with multiplier total 1 gives exactly 60000. -/
theorem citizenIntervalTime_truncation (happiness multiplierTotal : ℚ) :
    citizenIntervalTime happiness multiplierTotal =
        1000 * (ratTrunc ((60000 * ((190 - happiness) / 100)) / 1000) : ℚ) *
          multiplierTotal ∧
      (happiness ≤ 190 →
        citizenIntervalTime happiness multiplierTotal =
          specRecruitPeriod happiness multiplierTotal) ∧
      citizenIntervalTime 90 1 = 60000 := by
  refine ⟨citizenIntervalTime_eq happiness multiplierTotal, ?_, ?_⟩
  · intro h
    have h0 : (0 : ℚ) ≤ (60000 * ((190 - happiness) / 100)) / 1000 := by
      have h1 : (0 : ℚ) ≤ 190 - happiness := by linarith
      have h2 : (0 : ℚ) ≤ (190 - happiness) / 100 := by linarith
      have h3 : (0 : ℚ) ≤ 60000 * ((190 - happiness) / 100) := by linarith
      linarith
    rw [citizenIntervalTime_eq, specRecruitPeriod, clampToWholeSeconds,
      ratTrunc, if_pos h0]
  · rw [citizenIntervalTime_eq]
    norm_num [ratTrunc, ratFloor_eq_intFloor]

/-- C5 witness: at happiness 90 and multiplier total 1 the period
matches the spec formula and equals 60000ms. -/
theorem citizenIntervalTime_truncation_witness :
    citizenIntervalTime 90 1 = specRecruitPeriod 90 1 ∧
      citizenIntervalTime 90 1 = 60000 :=
  ⟨(citizenIntervalTime_truncation 90 1).2.1 (by norm_num),
    (citizenIntervalTime_truncation 90 1).2.2⟩

/-- C6: the starvation listener runs on the food tick after the clamp,
and it decrements the citizen count by exactly 1 if and only if the food
stock it observes at that point is strictly negative; otherwise the
citizen count is unchanged.  The observed post-clamp stock is in fact
never negative. -/
theorem starvation_listener_spec (citizenCount : Int) (food : Resource) :
    ((starvationTick citizenCount food).1 = citizenCount - 1 ↔
        (food.applyTick).value < 0) ∧
      (starvationTick citizenCount food).2 = food.applyTick ∧
      (¬ (food.applyTick).value < 0 →
        (starvationTick citizenCount food).1 = citizenCount) ∧
      0 ≤ (food.applyTick).value := by
  refine ⟨?_, rfl, ?_, le_max_left 0 _⟩
  · by_cases hv : (food.applyTick).value < 0 <;>
      simp [starvationTick, hv] <;> omega
  · intro hv
    simp [starvationTick, hv]

/-- C6 witness: an empty food resource does not change the citizen
count. -/
theorem starvation_listener_spec_witness :
    (starvationTick 5 emptyResource).1 = 5 :=
  (starvation_listener_spec 5 emptyResource).2.2.1
    (by norm_num [Resource.applyTick, emptyResource, NumberMap.total])

/-- A concrete level table used as a test input: every level has
capacity 10 and revenue 3 for every resource, and a citizen threshold of
10. -/
def testLevelConfig : Nat → LevelConfig :=
  fun _ => ⟨fun _ => 10, fun _ => 3, 10⟩

/-- C7 counterexample: after the level synchronisation, the food
capacity contribution keyed by the controller id `buildings.townHall` is
absent (so it is not the level table value 10); the table capacity value
is registered under the resource key `food` instead. -/
theorem syncLevel_capacity_key_counterexample :
    (syncLevel testLevelConfig 1 emptyResources).food.capacity.find
        "buildings.townHall" = none ∧
      (syncLevel testLevelConfig 1 emptyResources).food.capacity.find
        "food" = some 10 := by
  constructor <;> rfl

/-- C7 (amended): on entering any level, for every resource type, the
controller sets that resource's capacity contribution keyed by the
resource's own key (not by the controller id) to the level table's
capacity value, and that resource's revenue contribution keyed by the
controller id `buildings.townHall` to the level table's revenue
value. -/
theorem syncLevel_sets_table_values (config : Nat → LevelConfig)
    (level : Nat) (rs : Resources) (key : ResourceKey) :
    ((syncLevel config level rs).get key).capacity.find
        (resourceKeyName key) = some ((config level).capacities key) ∧
      ((syncLevel config level rs).get key).revenue.find
        "buildings.townHall" = some ((config level).revenue key) := by
  cases key <;>
    simp [syncLevel, resourceKeys, Resources.get, Resources.set,
      Resource.setCapacity, Resource.setRevenue, resourceKeyName,
      NumberMap.find_set_self]

/-- C8: for every job, after the revenue feed runs, the resource mapped
1:1 to that job carries a revenue contribution under the key
`citizens.<job>` equal to the assigned count of the job times the total
of the per-citizen revenue map of the job. -/
theorem revenueFeed_sets_job_revenue (jobs : Jobs)
    (jobIncrements : Job → NumberMap) (rs : Resources) (job : Job) :
    ((revenueFeed jobs jobIncrements rs).get (jobResourceMap job)).revenue.find
        (String.append "citizens." (jobName job)) =
      some ((jobs.get job : ℚ) * (jobIncrements job).total) := by
  cases job <;>
    simp [revenueFeed, jobKeys, jobResourceMap, jobName, Resources.get,
      Resources.set, Resource.setRevenue, NumberMap.find_set_self]

theorem ratTrunc_nonpos (q : ℚ) (hq : q ≤ 0) : ratTrunc q ≤ 0 := by
  unfold ratTrunc
  split
  · next h0 =>
      have hq0 : q = 0 := le_antisymm hq h0
      subst hq0
      decide
  · next h0 =>
      have h1 : (0 : ℚ) ≤ -q := by linarith
      have h2 : (0 : Int) ≤ Rat.floor (-q) := by
        rw [ratFloor_eq_intFloor]
        exact Int.floor_nonneg.mpr h1
      omega

/-- C10: the recruitment period computation has no lower floor: for
every happiness value of at least 190 with multiplier total 1, the
computed period is at most 0, and therefore every 100ms interval firing
while the timer is active (from any nonnegative elapsed time)
immediately recruits a citizen and resets the elapsed time. -/
theorem recruitment_without_floor (happiness : ℚ) (h : 190 ≤ happiness)
    (e : ℚ) (he : 0 ≤ e) (c : Int) :
    citizenIntervalTime happiness 1 ≤ 0 ∧
      intervalTick (citizenIntervalTime happiness 1) ⟨e, c, true⟩ =
        ⟨0, c + 1, true⟩ := by
  have hv : (60000 * ((190 - happiness) / 100)) / 1000 ≤ 0 := by
    have h1 : 190 - happiness ≤ 0 := by linarith
    have h2 : (190 - happiness) / 100 ≤ 0 := by linarith
    have h3 : 60000 * ((190 - happiness) / 100) ≤ 0 := by linarith
    linarith
  have ht := ratTrunc_nonpos _ hv
  have hp : citizenIntervalTime happiness 1 ≤ 0 := by
    rw [citizenIntervalTime_eq]
    have ht2 : ((ratTrunc ((60000 * ((190 - happiness) / 100)) / 1000) : Int) : ℚ) ≤ 0 := by
      exact_mod_cast ht
    nlinarith
  refine ⟨hp, ?_⟩
  have hlt : ¬ (e + 100 < citizenIntervalTime happiness 1) := by linarith
  simp only [intervalTick, checkRecruitmentTime, if_true, if_neg hlt]

/-- C10 witness: at happiness 200 the period is nonpositive and a single
100ms firing from elapsed 0 recruits a citizen. -/
theorem recruitment_without_floor_witness :
    citizenIntervalTime 200 1 ≤ 0 ∧
      intervalTick (citizenIntervalTime 200 1) ⟨0, 0, true⟩ =
        ⟨0, 1, true⟩ :=
  recruitment_without_floor 200 (by norm_num) 0 le_rfl 0
